import Mathlib

/-!
Verification of the `gotennis` simulation core (`sim` package, `part_007`)
and market-derivation layer (`format/format.go`) against its natural-language
specification.

Embedding conventions:
* Go `float64` arithmetic is idealised as exact rational arithmetic (`ℚ`).
  The literal `1e-10` becomes `1/10^10`, `0.001` becomes `1/1000`, etc.
* Go's `math/rand` draws (`rand.Float64()`) are modelled as an explicit
  stream `rng : ℕ → ℚ` together with a cursor index that every sampling
  function threads through and returns.
* Go `int` counters that only ever start at zero and get incremented
  (games, sets, points) are modelled as `ℕ`; the `bestOf` configuration
  value, which may be an arbitrary integer, is modelled as `ℤ`.
* Unbounded `for` loops are modelled with an explicit fuel parameter that
  provably never runs out when the loop is entered from its real initial
  state (the fuel bound is part of what is proved below).
-/

namespace GoTennis

/-- Embedding of `sim.simulateGame` (`part_007` lines 201-234): closed-form
probability that the server wins a standard game given point probability `p`.
The deuce branch mirrors the source exactly, including the
`math.Abs(denominatorDeuce) < 1e-10` guard and the `[0.001, 0.999]` clamp. -/
def simulateGame (p : ℚ) : ℚ :=
  let denominatorDeuce : ℚ := 1 - 2 * p * (1 - p)
  let pDeuce : ℚ :=
    if |denominatorDeuce| < 1 / 10 ^ 10 then
      if p > 1 / 2 then 999 / 1000
      else if p < 1 / 2 then 1 / 1000
      else 1 / 2
    else
      max (1 / 1000) (min (999 / 1000) ((p * p) / denominatorDeuce))
  let p40 : ℚ := p ^ 4
  let p41 : ℚ := 4 * p ^ 4 * (1 - p)
  let p42 : ℚ := 10 * p ^ 4 * (1 - p) * (1 - p)
  let probReachDeuce : ℚ := 20 * p * p * p * (1 - p) * (1 - p) * (1 - p)
  let probWinFromDeuce : ℚ := probReachDeuce * pDeuce
  p40 + p41 + p42 + probWinFromDeuce

/-- The deuce-win probability exactly as claim C2 words it: the ratio
`p^2 / (1 - 2*p*(1-p))` clamped to `[0.001, 0.999]` when the denominator's
absolute value is at least `1e-10`, and otherwise `0.999`/`0.001`/`0.5`
according to the sign cases.  Written from the claim, for comparison with
the source-derived `simulateGame`. -/
def pDeuceSpec (p : ℚ) : ℚ :=
  if 1 / 10 ^ 10 ≤ |1 - 2 * p * (1 - p)| then
    max (1 / 1000) (min (999 / 1000) (p ^ 2 / (1 - 2 * p * (1 - p))))
  else if p > 1 / 2 then 999 / 1000
  else if p < 1 / 2 then 1 / 1000
  else 1 / 2

/-- The game-win formula exactly as claim C2 states it:
`p^4 + 4*p^4*(1-p) + 10*p^4*(1-p)^2 + 20*p^3*(1-p)^3 * pDeuce`. -/
def gameFormulaSpec (p : ℚ) : ℚ :=
  p ^ 4 + 4 * p ^ 4 * (1 - p) + 10 * p ^ 4 * (1 - p) ^ 2
    + 20 * p ^ 3 * (1 - p) ^ 3 * pDeuceSpec p

/-- Embedding of the server-selection logic inside `sim.aWinsTiebreak`
(`part_007` lines 116-127): whether player A serves the point played when
`total` points have already been played, given who served the first point.
Pattern: 1 point by the designated server, then alternating pairs. -/
def tiebreakServerIsA (aServesFirstPointInTiebreak : Bool) (total : ℕ) : Bool :=
  if total = 0 then
    aServesFirstPointInTiebreak
  else
    let pointPairIndex := (total - 1) / 2
    if pointPairIndex % 2 = 0 then
      !aServesFirstPointInTiebreak
    else
      aServesFirstPointInTiebreak

/-- Embedding of `tiebreakProbRecursive` inside `sim.aWinsTiebreak`
(`part_007` lines 97-141): probability that A wins the tiebreak from score
`(p1, p2)`.  The Go memo table is semantically transparent (a slot is only
read after being written with the value the recursion itself computes, and
the `-1.0` sentinel can never equal a stored value for probabilities in
`[0,1]`), so the recursion is embedded directly.  The depth cap
`p1 + p2 >= 30` from the source makes the recursion well-founded. -/
def tiebreakProbRecursive (probAonServe probBonServe : ℚ)
    (aServesFirstPointInTiebreak : Bool) (p1 p2 : ℕ) : ℚ :=
  if 7 ≤ p1 ∧ p2 + 2 ≤ p1 then 1
  else if 7 ≤ p2 ∧ p1 + 2 ≤ p2 then 0
  else if 30 ≤ p1 + p2 then 1 / 2
  else
    let probAWinCurrentPoint : ℚ :=
      if tiebreakServerIsA aServesFirstPointInTiebreak (p1 + p2) then
        probAonServe
      else
        1 - probBonServe
    probAWinCurrentPoint
        * tiebreakProbRecursive probAonServe probBonServe
            aServesFirstPointInTiebreak (p1 + 1) p2
      + (1 - probAWinCurrentPoint)
        * tiebreakProbRecursive probAonServe probBonServe
            aServesFirstPointInTiebreak p1 (p2 + 1)
termination_by 30 - (p1 + p2)
decreasing_by all_goals omega

/-- Embedding of `sim.aWinsTiebreak` (`part_007` line 143): the caller draws
one uniform value `u` and A wins the tiebreak when the exact win probability
exceeds it. -/
def aWinsTiebreak (probAonServe probBonServe : ℚ)
    (aServesFirstPointInTiebreak : Bool) (u : ℚ) : Bool :=
  decide (u < tiebreakProbRecursive probAonServe probBonServe
    aServesFirstPointInTiebreak 0 0)

/-- The server-selection rule exactly as claim C1 words it: the server of
the next point at score `(a, b)` is the designated first server iff
`a + b = 0` or `(a + b - 1) / 2` (floor division) is odd.  Written from the
claim, for comparison with the source-derived `tiebreakServerIsA`. -/
def serverIsDesignatedSpec (total : ℕ) : Prop :=
  total = 0 ∨ ((total - 1) / 2) % 2 = 1

instance (total : ℕ) : Decidable (serverIsDesignatedSpec total) := by
  unfold serverIsDesignatedSpec; infer_instance

/-- Reference recurrence `V` over `(pointsA, pointsB)` exactly as claim C1
states it: `V(a,b) = 1` if `a ≥ 7 ∧ a - b ≥ 2`, `0` if `b ≥ 7 ∧ b - a ≥ 2`,
otherwise `pWin * V(a+1,b) + (1-pWin) * V(a,b+1)` with `pWin = probAonServe`
when A serves and `1 - probBonServe` when B serves, A serving exactly when
the designated first server is due (`serverIsDesignatedSpec`) and A is that
designated server, or when neither holds.  The recurrence is evaluated
under the depth cap `a + b ≤ 30` that section 4.2 of the specification
attaches to the solver (claim C10); the cap is what makes it well-founded. -/
def tiebreakV (probAonServe probBonServe : ℚ) (aFirst : Bool) (a b : ℕ) : ℚ :=
  if 7 ≤ a ∧ 2 ≤ (a : ℤ) - (b : ℤ) then 1
  else if 7 ≤ b ∧ 2 ≤ (b : ℤ) - (a : ℤ) then 0
  else if 30 ≤ a + b then 1 / 2
  else
    let aServes : Bool :=
      if serverIsDesignatedSpec (a + b) then aFirst else !aFirst
    let pWin : ℚ := if aServes then probAonServe else 1 - probBonServe
    pWin * tiebreakV probAonServe probBonServe aFirst (a + 1) b
      + (1 - pWin) * tiebreakV probAonServe probBonServe aFirst a (b + 1)
termination_by 30 - (a + b)
decreasing_by all_goals omega

/-- Terminal predicate of the tiebreak recursion, read off the two winning
checks of `tiebreakProbRecursive` (`part_007` lines 103-108). -/
def tiebreakTerminal (p1 p2 : ℕ) : Prop :=
  (7 ≤ p1 ∧ p2 + 2 ≤ p1) ∨ (7 ≤ p2 ∧ p1 + 2 ≤ p2)

instance (p1 p2 : ℕ) : Decidable (tiebreakTerminal p1 p2) := by
  unfold tiebreakTerminal; infer_instance

/-- One recursive call of `tiebreakProbRecursive`: from a non-terminal state
below the depth cap, the code evaluates the two successor scores.  The
probabilities play no role in which states are evaluated. -/
def tiebreakStep (s t : ℕ × ℕ) : Prop :=
  ¬tiebreakTerminal s.1 s.2 ∧ s.1 + s.2 < 30 ∧
    (t = (s.1 + 1, s.2) ∨ t = (s.1, s.2 + 1))

/-- Embedding of `sim.SimulatedSet` (`part_007` lines 24-27). -/
structure SimulatedSet where
  AGames : ℕ
  BGames : ℕ
  deriving DecidableEq, Repr

/-- Embedding of `sim.SimulatedMatch` (`part_007` lines 17-21). -/
structure SimulatedMatch where
  ASets : ℕ
  BSets : ℕ
  SetResults : List SimulatedSet
  deriving DecidableEq, Repr

/-- The loop-exit test of `sim.simulateSet` (`part_007` line 191): a side
has at least 6 games and leads by at least 2. -/
def setGameBreak (a b : ℕ) : Prop :=
  (6 ≤ a ∨ 6 ≤ b) ∧ 2 ≤ ((a : ℤ) - (b : ℤ)).natAbs

instance (a b : ℕ) : Decidable (setGameBreak a b) := by
  unfold setGameBreak; infer_instance

/-- The game loop of `sim.simulateSet` (`part_007` lines 160-195), with an
explicit fuel parameter.  `a`/`b` are the two point-win probabilities,
`aGameWinProb`/`bGameWinProb` the two game-win probabilities computed once
before the loop, `sg` the current `serverGame` (1 or 2), `k` the cursor into
the random stream.  From the real entry state `(0, 0)` the loop provably
runs at most 13 iterations, so the fuel-exhaustion branch (which returns
the current score unchanged) is never reached from `simulateSet`. -/
def setLoop (a b aGameWinProb bGameWinProb : ℚ)
    (player1ServesFirstPointInTiebreak : Bool) (rng : ℕ → ℚ) :
    ℕ → ℕ → ℕ → ℕ → ℕ → SimulatedSet × ℕ
  | 0, ag, bg, _, k => (⟨ag, bg⟩, k)
  | fuel + 1, ag, bg, sg, k =>
    if ag = 6 ∧ bg = 6 then
      if aWinsTiebreak a b player1ServesFirstPointInTiebreak (rng k) then
        (⟨ag + 1, bg⟩, k + 1)
      else
        (⟨ag, bg + 1⟩, k + 1)
    else
      let probServerWinsGame : ℚ := if sg = 1 then aGameWinProb else bGameWinProb
      let score : ℕ × ℕ :=
        if rng k < probServerWinsGame then
          if sg = 1 then (ag + 1, bg) else (ag, bg + 1)
        else
          if sg = 1 then (ag, bg + 1) else (ag + 1, bg)
      if setGameBreak score.1 score.2 then (⟨score.1, score.2⟩, k + 1)
      else setLoop a b aGameWinProb bGameWinProb
        player1ServesFirstPointInTiebreak rng fuel score.1 score.2 (3 - sg) (k + 1)

/-- Embedding of `sim.simulateSet` (`part_007` lines 149-198).  Computes the
two game-win probabilities once, starts at score 0-0 with the designated
first server, and runs the game loop (13 units of fuel suffice, see
`setLoop_valid`). -/
def simulateSet (a b : ℚ) (player1ServesFirstGame : Bool) (rng : ℕ → ℚ)
    (k : ℕ) : SimulatedSet × ℕ :=
  setLoop a b (simulateGame a) (simulateGame b) player1ServesFirstGame rng
    13 0 0 (if player1ServesFirstGame then 1 else 2) k

/-- The set loop of `sim.simulateSingleMatch` (`part_007` lines 58-84), with
an explicit fuel parameter.  `s` is `setsToWin`; `asets`/`bsets` the sets
won so far, `sets` the accumulated set list, `k` the random-stream cursor.
From the real entry state `(0, 0)` the loop provably runs at most
`2*s - 1` iterations, so fuel `2*s` suffices and the fuel-exhaustion branch
is never reached from `simulateSingleMatch`. -/
def matchLoop (pA pB : ℚ) (s : ℕ) (rng : ℕ → ℚ) :
    ℕ → ℕ → ℕ → List SimulatedSet → ℕ → SimulatedMatch × ℕ
  | 0, asets, bsets, sets, k => (⟨asets, bsets, sets⟩, k)
  | fuel + 1, asets, bsets, sets, k =>
    if asets = s ∨ bsets = s then (⟨asets, bsets, sets⟩, k)
    else
      -- aServesFirstGameOfSet := (asets + bsets) % 2 == 0
      let r : SimulatedSet × ℕ :=
        if (asets + bsets) % 2 = 0 then simulateSet pA pB true rng k
        else simulateSet pB pA true rng k
      let set := r.1
      if set.BGames < set.AGames then
        if (asets + bsets) % 2 = 0 then
          matchLoop pA pB s rng fuel (asets + 1) bsets (sets ++ [set]) r.2
        else
          matchLoop pA pB s rng fuel asets (bsets + 1) (sets ++ [set]) r.2
      else
        if (asets + bsets) % 2 = 0 then
          matchLoop pA pB s rng fuel asets (bsets + 1) (sets ++ [set]) r.2
        else
          matchLoop pA pB s rng fuel (asets + 1) bsets (sets ++ [set]) r.2

/-- Embedding of `sim.simulateSingleMatch` (`part_007` lines 52-85). -/
def simulateSingleMatch (pA pB : ℚ) (setsToWin : ℕ) (rng : ℕ → ℚ) (k : ℕ) :
    SimulatedMatch × ℕ :=
  matchLoop pA pB setsToWin rng (2 * setsToWin) 0 0 [] k

/-- The simulation-count rule of `sim.SimulateMatch` (`part_007` lines
36-41): the variadic `n` is used when supplied and positive, otherwise
1,000,000. -/
def numSimulations (n : Option ℤ) : ℕ :=
  match n with
  | some m => if 0 < m then m.toNat else 1000000
  | none => 1000000

/-- The accumulation loop of `sim.SimulateMatch` (`part_007` lines 43-46):
run `simulateSingleMatch` `count` times, threading the random stream. -/
def simLoop (pA pB : ℚ) (s : ℕ) (rng : ℕ → ℚ) :
    ℕ → ℕ → List SimulatedMatch × ℕ
  | 0, k => ([], k)
  | count + 1, k =>
    let r := simulateSingleMatch pA pB s rng k
    let rest := simLoop pA pB s rng count r.2
    (r.1 :: rest.1, rest.2)

/-- Embedding of `sim.SimulateMatch` (`part_007` lines 30-49).  The invalid
`bestOf` check precedes all simulation; the error branch carries no match
results.  For `bo ∈ {3, 5}` the Go `bo/2 + 1` equals `bo.toNat / 2 + 1`. -/
def SimulateMatch (playerA playerB : ℚ) (bo : ℤ) (n : Option ℤ)
    (rng : ℕ → ℚ) : Except String (List SimulatedMatch) :=
  if bo ≠ 3 ∧ bo ≠ 5 then
    .error "invalid number of sets"
  else
    let setsToWinForMatch : ℕ := bo.toNat / 2 + 1
    .ok (simLoop playerA playerB setsToWinForMatch rng (numSimulations n) 0).1

/-- A match together with, for each stored set, the
`aServesFirstGameOfSet` flag that was in force when that set was simulated.
Ghost instrumentation of `simulateSingleMatch` used to state which player
each stored `SimulatedSet` is oriented to. -/
structure TracedMatch where
  ASets : ℕ
  BSets : ℕ
  trace : List (Bool × SimulatedSet)
  deriving DecidableEq, Repr

/-- `matchLoop` with ghost instrumentation: identical control flow and
draws, but each appended set is paired with the `aServesFirstGameOfSet`
flag under which it was simulated. -/
def matchLoopTraced (pA pB : ℚ) (s : ℕ) (rng : ℕ → ℚ) :
    ℕ → ℕ → ℕ → List (Bool × SimulatedSet) → ℕ → TracedMatch × ℕ
  | 0, asets, bsets, tr, k => (⟨asets, bsets, tr⟩, k)
  | fuel + 1, asets, bsets, tr, k =>
    if asets = s ∨ bsets = s then (⟨asets, bsets, tr⟩, k)
    else
      let aServesFirstGameOfSet : Bool := decide ((asets + bsets) % 2 = 0)
      let r : SimulatedSet × ℕ :=
        if (asets + bsets) % 2 = 0 then simulateSet pA pB true rng k
        else simulateSet pB pA true rng k
      let set := r.1
      if set.BGames < set.AGames then
        if (asets + bsets) % 2 = 0 then
          matchLoopTraced pA pB s rng fuel (asets + 1) bsets
            (tr ++ [(aServesFirstGameOfSet, set)]) r.2
        else
          matchLoopTraced pA pB s rng fuel asets (bsets + 1)
            (tr ++ [(aServesFirstGameOfSet, set)]) r.2
      else
        if (asets + bsets) % 2 = 0 then
          matchLoopTraced pA pB s rng fuel asets (bsets + 1)
            (tr ++ [(aServesFirstGameOfSet, set)]) r.2
        else
          matchLoopTraced pA pB s rng fuel (asets + 1) bsets
            (tr ++ [(aServesFirstGameOfSet, set)]) r.2

/-- `simulateSingleMatch` with the ghost serving-orientation trace. -/
def simulateSingleMatchTraced (pA pB : ℚ) (setsToWin : ℕ) (rng : ℕ → ℚ)
    (k : ℕ) : TracedMatch × ℕ :=
  matchLoopTraced pA pB setsToWin rng (2 * setsToWin) 0 0 [] k

/-- Modelled from the spec (section 4.5): the ground-truth per-player game
tally of a traced match.  A set simulated under `aServesFirstGameOfSet =
true` stores player A's games in `AGames`; one simulated under `false` was
fed `(pB, pA)`, so its `AGames` are player B's games and the pair must be
swapped to recover the per-player totals. -/
def truePlayerGames (tr : List (Bool × SimulatedSet)) : ℕ × ℕ :=
  tr.foldl
    (fun acc e =>
      if e.1 then (acc.1 + e.2.AGames, acc.2 + e.2.BGames)
      else (acc.1 + e.2.BGames, acc.2 + e.2.AGames))
    (0, 0)

/-- Market kinds of `format.Market` (`format.go` lines 8-14): moneyline,
handicap, total. -/
inductive Market where
  | ML
  | AH
  | OU
  deriving DecidableEq, Repr

/-- Embedding of `format.Probability` (`format.go` lines 16-21).  The Go
`Line` field is a string (`"%.1f"` of the numeric line, `"ml"` for the
moneyline); half-integer formatting is injective, so the field is embedded
as the raw rational line value, with `0` standing for the `"ml"` label. -/
structure Probability where
  Market : Market
  Line : ℚ
  ProbA : ℚ
  ProbB : ℚ
  deriving DecidableEq, Repr

/-- Embedding of `format.mapBOToGameSpread` (`format.go` lines 28-37). -/
def mapBOToGameSpread (bo : ℤ) : ℚ :=
  if bo = 3 then 17 / 2
  else if bo = 5 then 25 / 2
  else 0

/-- Embedding of `format.GetMoneyline` (`format.go` lines 40-54). -/
def GetMoneyline (sims : List SimulatedMatch) : Probability :=
  let n := (sims.filter fun s => decide (s.BSets < s.ASets)).length
  { Market := .ML
    Line := 0
    ProbA := (n : ℚ) / (sims.length : ℚ)
    ProbB := 1 - (n : ℚ) / (sims.length : ℚ) }

/-- Embedding of `format.getMatchGames` (`format.go` lines 83-90): sum the
stored `AGames` and `BGames` fields over all sets of the match. -/
def getMatchGames (m : SimulatedMatch) : ℕ × ℕ :=
  m.SetResults.foldl (fun acc set => (acc.1 + set.AGames, acc.2 + set.BGames))
    (0, 0)

/-- Embedding of `format.getGameHandicap` (`format.go` lines 66-81): count
matches where `aGames + handicap > bGames`. -/
def getGameHandicap (sims : List SimulatedMatch) (handicap : ℚ) :
    Probability :=
  let n := (sims.filter fun m =>
    decide (((getMatchGames m).2 : ℚ) < ((getMatchGames m).1 : ℚ) + handicap)).length
  { Market := .AH
    Line := handicap
    ProbA := (n : ℚ) / (sims.length : ℚ)
    ProbB := 1 - (n : ℚ) / (sims.length : ℚ) }

/-- A Go loop `for i := lo; i <= hi; i++` over exact `float64` values with
unit step: the visited values, in order. -/
def stepRange (lo hi : ℚ) : List ℚ :=
  (List.range (⌊hi - lo⌋ + 1).toNat).map fun j => lo + (j : ℚ)

/-- Embedding of `format.GetGameHandicaps` (`format.go` lines 56-64). -/
def GetGameHandicaps (sims : List SimulatedMatch) (bestof : ℤ) :
    List Probability :=
  (stepRange (-(mapBOToGameSpread bestof)) (mapBOToGameSpread bestof)).map
    fun i => getGameHandicap sims i

/-- Embedding of `format.getGameTotal` (`format.go` lines 101-116): count
matches where `aGames + bGames > total`. -/
def getGameTotal (results : List SimulatedMatch) (total : ℚ) : Probability :=
  let n := (results.filter fun m =>
    decide (total < (((getMatchGames m).1 + (getMatchGames m).2 : ℕ) : ℚ))).length
  { Market := .OU
    Line := total
    ProbA := (n : ℚ) / (results.length : ℚ)
    ProbB := 1 - (n : ℚ) / (results.length : ℚ) }

/-- Embedding of `format.GetGameTotals` (`format.go` lines 93-99).  For
`bo ∈ {3,5}` the Go `float64(bestof/2+1)*6 + 0.5` equals
`(bo.toNat/2+1)*6 + 1/2`. -/
def GetGameTotals (results : List SimulatedMatch) (bestof : ℤ) :
    List Probability :=
  (stepRange (((bestof.toNat / 2 + 1 : ℕ) : ℚ) * 6 + 1 / 2)
      (((bestof : ℚ) * 6 * 2) + 1 / 2)).map
    fun i => getGameTotal results i

/-- Embedding of `format.getSetHandicap` (`format.go` lines 133-147). -/
def getSetHandicap (results : List SimulatedMatch) (handicap : ℚ) :
    Probability :=
  let n := (results.filter fun m =>
    decide ((m.BSets : ℚ) < (m.ASets : ℚ) + handicap)).length
  { Market := .AH
    Line := handicap
    ProbA := (n : ℚ) / (results.length : ℚ)
    ProbB := 1 - (n : ℚ) / (results.length : ℚ) }

/-- Embedding of `format.GetSetHandicaps` (`format.go` lines 118-131). -/
def GetSetHandicaps (results : List SimulatedMatch) (bestof : ℤ) :
    List Probability :=
  if bestof = 3 then
    (stepRange (-(3 / 2)) (3 / 2)).map fun i => getSetHandicap results i
  else
    (stepRange (-(5 / 2)) (5 / 2)).map fun i => getSetHandicap results i

/-- Embedding of `format.getSetTotal` (`format.go` lines 168-182). -/
def getSetTotal (results : List SimulatedMatch) (total : ℚ) : Probability :=
  let n := (results.filter fun m =>
    decide (total < ((m.ASets + m.BSets : ℕ) : ℚ))).length
  { Market := .OU
    Line := total
    ProbA := (n : ℚ) / (results.length : ℚ)
    ProbB := 1 - (n : ℚ) / (results.length : ℚ) }

/-- Embedding of `format.GetSetTotals` (`format.go` lines 149-166).  The Go
best-of-3 branch also computes an unused counter `n`; that dead local has
no effect on the result and is omitted. -/
def GetSetTotals (results : List SimulatedMatch) (bestof : ℤ) :
    List Probability :=
  if bestof = 3 then
    [getSetTotal results (5 / 2)]
  else
    (stepRange (7 / 2) (9 / 2)).map fun i => getSetTotal results i

/-- Valid finished set scores as claims C7 and the spec state them: in some
orientation `{6-x : x ≤ 4}`, `7-5` or `7-6`. -/
def validSetScore (set : SimulatedSet) : Prop :=
  (set.AGames = 6 ∧ set.BGames ≤ 4) ∨ (set.BGames = 6 ∧ set.AGames ≤ 4) ∨
  (set.AGames = 7 ∧ set.BGames = 5) ∨ (set.BGames = 7 ∧ set.AGames = 5) ∨
  (set.AGames = 7 ∧ set.BGames = 6) ∨ (set.BGames = 7 ∧ set.AGames = 6)

instance (set : SimulatedSet) : Decidable (validSetScore set) := by
  unfold validSetScore; infer_instance

/-- Well-formedness of a simulated match as claim C7 states it, relative to
the target `s = setsToWin`: all set scores valid, exactly one side at `s`
with the other strictly below, and as many stored sets as sets won. -/
def wellFormedMatch (s : ℕ) (m : SimulatedMatch) : Prop :=
  (∀ set ∈ m.SetResults, validSetScore set) ∧
  ((m.ASets = s ∧ m.BSets < s) ∨ (m.BSets = s ∧ m.ASets < s)) ∧
  m.SetResults.length = m.ASets + m.BSets

instance (s : ℕ) (m : SimulatedMatch) : Decidable (wellFormedMatch s m) := by
  unfold wellFormedMatch; infer_instance

/-- Two-sidedness of one market line as claim C8 states it: the two
probabilities sum to exactly 1 (exact rational arithmetic stands in for
"within floating-point tolerance") and each lies in `[0, 1]`. -/
def marketOK (pr : Probability) : Prop :=
  pr.ProbA + pr.ProbB = 1 ∧
  0 ≤ pr.ProbA ∧ pr.ProbA ≤ 1 ∧ 0 ≤ pr.ProbB ∧ pr.ProbB ≤ 1

/-- The game-handicap `probA` exactly as claim C5 words it: the fraction of
results with `B_result - A_result < h` when `h < 0`, and the fraction with
`B_result - A_result > h` when `h ≥ 0`.  Written from the claim, for
comparison with the source-derived `getGameHandicap`. -/
def gameHandicapSignBranchProbA (sims : List SimulatedMatch) (h : ℚ) : ℚ :=
  let n := (sims.filter fun m =>
    if h < 0 then
      decide ((((getMatchGames m).2 : ℚ) - ((getMatchGames m).1 : ℚ)) < h)
    else
      decide (h < (((getMatchGames m).2 : ℚ) - ((getMatchGames m).1 : ℚ)))).length
  (n : ℚ) / (sims.length : ℚ)

/-- The set-handicap `probA` exactly as claim C5 words it (sign-branched on
`h`). -/
def setHandicapSignBranchProbA (results : List SimulatedMatch) (h : ℚ) : ℚ :=
  let n := (results.filter fun m =>
    if h < 0 then decide (((m.BSets : ℚ) - (m.ASets : ℚ)) < h)
    else decide (h < ((m.BSets : ℚ) - (m.ASets : ℚ)))).length
  (n : ℚ) / (results.length : ℚ)

/-- Amended covering rule for C5: A covers handicap `h` exactly when
`B_result - A_result < h`, equivalently `A_result + h > B_result`, with no
sign branching. -/
def coverFractionProbA (pairs : List (ℕ × ℕ)) (h : ℚ) : ℚ :=
  let n := (pairs.filter fun p => decide (((p.2 : ℚ) - (p.1 : ℚ)) < h)).length
  (n : ℚ) / (pairs.length : ℚ)

/-- Total games played in the traced sets strictly before index `i`. -/
def gamesBefore (tr : List (Bool × SimulatedSet)) (i : ℕ) : ℕ :=
  ((tr.take i).map fun e => e.2.AGames + e.2.BGames).sum

/-- The serving rule exactly as claim C4 states it: player A's parameters
serve first in a set iff the total number of games played in the match
before that set is even. -/
def gamesParityRule (tr : List (Bool × SimulatedSet)) : Prop :=
  ∀ i, (h : i < tr.length) → (tr.get ⟨i, h⟩).1 = decide (gamesBefore tr i % 2 = 0)

instance (tr : List (Bool × SimulatedSet)) : Decidable (gamesParityRule tr) := by
  unfold gamesParityRule; infer_instance

/-- A concrete random stream: every draw is `1/2` (a legal `rand.Float64()`
value).  Used for the concrete runs in the counterexamples and witnesses. -/
def rngHalf : ℕ → ℚ := fun _ => 1 / 2

/-- The pre-deuce winning mass of `simulateGame`: `p40 + p41 + p42`
(`part_007` lines 221-226). -/
def gameWinBeforeDeuce (p : ℚ) : ℚ :=
  p ^ 4 + 4 * p ^ 4 * (1 - p) + 10 * p ^ 4 * (1 - p) * (1 - p)

/-- `probReachDeuce` of `simulateGame` (`part_007` line 230). -/
def gameReachDeuce (p : ℚ) : ℚ :=
  20 * p * p * p * (1 - p) * (1 - p) * (1 - p)

/-- The clamped deuce-win probability of `simulateGame` in the live branch
(`part_007` lines 216-217); by `denominatorDeuce_ge_half` the dead-zone
branch is never taken. -/
def gameDeuceProb (p : ℚ) : ℚ :=
  max (1 / 1000) (min (999 / 1000) ((p * p) / (1 - 2 * p * (1 - p))))

end GoTennis

namespace GoTennis

/-- The deuce denominator `1 - 2*p*(1-p)` is at least `1/2` for every
rational `p`, so the `1e-10` dead-zone branch of `simulateGame` is never
taken. -/
theorem denominatorDeuce_ge_half (p : ℚ) : 1 / 2 ≤ 1 - 2 * p * (1 - p) := by
  nlinarith [sq_nonneg (2 * p - 1)]

/-- The dead-zone test `|denominatorDeuce| < 1e-10` of `simulateGame` is
false for every rational `p`. -/
theorem deuce_guard_false (p : ℚ) :
    ¬ |1 - 2 * p * (1 - p)| < 1 / 10 ^ 10 := by
  have h := denominatorDeuce_ge_half p
  have habs : |1 - 2 * p * (1 - p)| = 1 - 2 * p * (1 - p) :=
    abs_of_nonneg (by linarith)
  rw [habs]
  norm_num
  linarith

/-- `simulateGame` decomposed into its three live constituents. -/
theorem simulateGame_decomp (p : ℚ) :
    simulateGame p = gameWinBeforeDeuce p + gameReachDeuce p * gameDeuceProb p := by
  unfold simulateGame gameWinBeforeDeuce gameReachDeuce gameDeuceProb
  dsimp only
  rw [if_neg (deuce_guard_false p)]

/-- The pre-deuce win mass, the pre-deuce loss mass and the reach-deuce mass
partition the six-point prefix of a game. -/
theorem game_partition (p : ℚ) :
    gameWinBeforeDeuce p + gameWinBeforeDeuce (1 - p) + gameReachDeuce p = 1 := by
  unfold gameWinBeforeDeuce gameReachDeuce
  ring

/-- The pre-deuce win mass is monotone non-decreasing on `[0, 1]`: its
increment is a positive combination of products of `x`, `y - x` and
`1 - y`. -/
theorem gameWinBeforeDeuce_mono {x y : ℚ} (hx : 0 ≤ x) (hxy : x ≤ y)
    (hy : y ≤ 1) : gameWinBeforeDeuce x ≤ gameWinBeforeDeuce y := by
  have key : gameWinBeforeDeuce y - gameWinBeforeDeuce x
      = 60*x^3*(1-y)^2*(y-x) + 60*x^3*(y-x)^2*(1-y) + 20*x^3*(y-x)^3
        + 90*x^2*(y-x)^2*(1-y)^2 + 60*x^2*(y-x)^3*(1-y) + 15*x^2*(y-x)^4
        + 60*x*(y-x)^3*(1-y)^2 + 30*x*(y-x)^4*(1-y) + 6*x*(y-x)^5
        + 15*(y-x)^4*(1-y)^2 + 6*(y-x)^5*(1-y) + (y-x)^6 := by
    unfold gameWinBeforeDeuce
    ring
  nlinarith [pow_nonneg hx 3, pow_nonneg hx 2, pow_nonneg (sub_nonneg.2 hxy) 2,
    pow_nonneg (sub_nonneg.2 hxy) 3, pow_nonneg (sub_nonneg.2 hxy) 4,
    pow_nonneg (sub_nonneg.2 hxy) 5, pow_nonneg (sub_nonneg.2 hxy) 6,
    pow_nonneg (sub_nonneg.2 hy) 2, sub_nonneg.2 hy, sub_nonneg.2 hxy,
    mul_nonneg (mul_nonneg (pow_nonneg hx 3) (pow_nonneg (sub_nonneg.2 hy) 2)) (sub_nonneg.2 hxy),
    mul_nonneg (mul_nonneg (pow_nonneg hx 3) (pow_nonneg (sub_nonneg.2 hxy) 2)) (sub_nonneg.2 hy),
    mul_nonneg (pow_nonneg hx 3) (pow_nonneg (sub_nonneg.2 hxy) 3),
    mul_nonneg (mul_nonneg (pow_nonneg hx 2) (pow_nonneg (sub_nonneg.2 hxy) 2)) (pow_nonneg (sub_nonneg.2 hy) 2),
    mul_nonneg (mul_nonneg (pow_nonneg hx 2) (pow_nonneg (sub_nonneg.2 hxy) 3)) (sub_nonneg.2 hy),
    mul_nonneg (pow_nonneg hx 2) (pow_nonneg (sub_nonneg.2 hxy) 4),
    mul_nonneg (mul_nonneg hx (pow_nonneg (sub_nonneg.2 hxy) 3)) (pow_nonneg (sub_nonneg.2 hy) 2),
    mul_nonneg (mul_nonneg hx (pow_nonneg (sub_nonneg.2 hxy) 4)) (sub_nonneg.2 hy),
    mul_nonneg hx (pow_nonneg (sub_nonneg.2 hxy) 5),
    mul_nonneg (pow_nonneg (sub_nonneg.2 hxy) 4) (pow_nonneg (sub_nonneg.2 hy) 2),
    mul_nonneg (pow_nonneg (sub_nonneg.2 hxy) 5) (sub_nonneg.2 hy)]

/-- The unclamped deuce ratio is monotone on `[0, 1]`. -/
theorem deuceRatio_mono {x y : ℚ} (hx : 0 ≤ x) (hxy : x ≤ y) (hy : y ≤ 1) :
    x * x / (1 - 2 * x * (1 - x)) ≤ y * y / (1 - 2 * y * (1 - y)) := by
  have hdx : (0 : ℚ) < 1 - 2 * x * (1 - x) := lt_of_lt_of_le (by norm_num) (denominatorDeuce_ge_half x)
  have hdy : (0 : ℚ) < 1 - 2 * y * (1 - y) := lt_of_lt_of_le (by norm_num) (denominatorDeuce_ge_half y)
  rw [div_le_div_iff₀ hdx hdy]
  have hkey : y * y * (1 - 2 * x * (1 - x)) - x * x * (1 - 2 * y * (1 - y))
      = (y - x) * (y * (1 - x) + x * (1 - y)) := by ring
  nlinarith [mul_nonneg (sub_nonneg.2 hxy)
    (add_nonneg (mul_nonneg (hx.trans hxy) (sub_nonneg.2 (hxy.trans hy)))
      (mul_nonneg hx (sub_nonneg.2 hy)))]

/-- The clamped deuce probability is monotone on `[0, 1]`. -/
theorem gameDeuceProb_mono {x y : ℚ} (hx : 0 ≤ x) (hxy : x ≤ y) (hy : y ≤ 1) :
    gameDeuceProb x ≤ gameDeuceProb y := by
  unfold gameDeuceProb
  exact max_le_max le_rfl (min_le_min le_rfl (deuceRatio_mono hx hxy hy))

/-- The clamped deuce probability stays in `[1/1000, 999/1000]`. -/
theorem gameDeuceProb_bounds (p : ℚ) :
    1 / 1000 ≤ gameDeuceProb p ∧ gameDeuceProb p ≤ 999 / 1000 := by
  unfold gameDeuceProb
  constructor
  · exact le_max_left _ _
  · exact max_le (by norm_num) (min_le_left _ _)

/-- The pre-deuce win mass is non-negative on `[0, 1]`. -/
theorem gameWinBeforeDeuce_nonneg {p : ℚ} (h0 : 0 ≤ p) :
    0 ≤ gameWinBeforeDeuce p := by
  have key : gameWinBeforeDeuce p = p ^ 4 * (15 - 24 * p + 10 * p ^ 2) := by
    unfold gameWinBeforeDeuce
    ring
  have hq : (0 : ℚ) < 15 - 24 * p + 10 * p ^ 2 := by
    nlinarith [sq_nonneg (10 * p - 12)]
  nlinarith [pow_nonneg h0 4]

/-- The reach-deuce mass is non-negative on `[0, 1]`. -/
theorem gameReachDeuce_nonneg {p : ℚ} (h0 : 0 ≤ p) (h1 : p ≤ 1) :
    0 ≤ gameReachDeuce p := by
  unfold gameReachDeuce
  have h1p : (0 : ℚ) ≤ 1 - p := by linarith
  positivity

/-- Every run of the set loop from a legal mid-set state ends in a valid
set score.  A legal mid-set state has both sides at most 6 games and the
exit test not yet satisfied; the fuel bound `13 ≤ fuel + games` holds for
the real entry `(0, 0)` with fuel 13 and is preserved, so the
fuel-exhaustion branch is unreachable. -/
theorem setLoop_valid (a b aGW bGW : ℚ) (p1 : Bool) (rng : ℕ → ℚ) :
    ∀ fuel ag bg sg k, ag ≤ 6 → bg ≤ 6 → ¬setGameBreak ag bg →
      13 ≤ fuel + (ag + bg) →
      validSetScore (setLoop a b aGW bGW p1 rng fuel ag bg sg k).1 := by
  intro fuel
  induction fuel with
  | zero =>
    intro ag bg sg k hag hbg hnb hfuel
    exact absurd hfuel (by omega)
  | succ fuel ih =>
    intro ag bg sg k hag hbg hnb hfuel
    unfold setGameBreak at hnb
    simp only [setLoop]
    by_cases h66 : ag = 6 ∧ bg = 6
    · rw [if_pos h66]
      by_cases htb : aWinsTiebreak a b p1 (rng k) = true
      · rw [if_pos htb]
        simp only [validSetScore]
        omega
      · rw [if_neg htb]
        simp only [validSetScore]
        omega
    · rw [if_neg h66]
      by_cases hsg : sg = 1
      · simp only [if_pos hsg]
        by_cases hrand : rng k < aGW
        · simp only [if_pos hrand]
          by_cases hbrk : setGameBreak (ag + 1) bg
          · rw [if_pos hbrk]
            unfold setGameBreak at hbrk
            simp only [validSetScore]
            omega
          · rw [if_neg hbrk]
            unfold setGameBreak at hbrk
            exact ih (ag + 1) bg (3 - sg) (k + 1) (by omega) (by omega)
              (by unfold setGameBreak; omega) (by omega)
        · simp only [if_neg hrand]
          by_cases hbrk : setGameBreak ag (bg + 1)
          · rw [if_pos hbrk]
            unfold setGameBreak at hbrk
            simp only [validSetScore]
            omega
          · rw [if_neg hbrk]
            unfold setGameBreak at hbrk
            exact ih ag (bg + 1) (3 - sg) (k + 1) (by omega) (by omega)
              (by unfold setGameBreak; omega) (by omega)
      · simp only [if_neg hsg]
        by_cases hrand : rng k < bGW
        · simp only [if_pos hrand]
          by_cases hbrk : setGameBreak ag (bg + 1)
          · rw [if_pos hbrk]
            unfold setGameBreak at hbrk
            simp only [validSetScore]
            omega
          · rw [if_neg hbrk]
            unfold setGameBreak at hbrk
            exact ih ag (bg + 1) (3 - sg) (k + 1) (by omega) (by omega)
              (by unfold setGameBreak; omega) (by omega)
        · simp only [if_neg hrand]
          by_cases hbrk : setGameBreak (ag + 1) bg
          · rw [if_pos hbrk]
            unfold setGameBreak at hbrk
            simp only [validSetScore]
            omega
          · rw [if_neg hbrk]
            unfold setGameBreak at hbrk
            exact ih (ag + 1) bg (3 - sg) (k + 1) (by omega) (by omega)
              (by unfold setGameBreak; omega) (by omega)

/-- C2: for every `p ∈ [0,1]`, `simulateGame(p)` returns exactly
`p^4 + 4*p^4*(1-p) + 10*p^4*(1-p)^2 + 20*p^3*(1-p)^3 * pDeuce`, with
`pDeuce` the clamped ratio when `|1 - 2*p*(1-p)| ≥ 1e-10` and the sign-cased
constants otherwise, as stated by the claim (`pDeuceSpec`/`gameFormulaSpec`
transcribe the claim's words). -/
theorem C2_simulateGame_matches_formula (p : ℚ) (h0 : 0 ≤ p) (h1 : p ≤ 1) :
    simulateGame p = gameFormulaSpec p := by
  have hdead := deuce_guard_false p
  unfold simulateGame gameFormulaSpec pDeuceSpec
  dsimp only
  rw [if_neg hdead, if_pos (not_lt.mp hdead)]
  have hsq : p * p = p ^ 2 := by ring
  rw [hsq]
  ring

/-- Witness for C2 at `p = 1/2`. -/
theorem C2_witness :
    (0 ≤ (1 / 2 : ℚ) ∧ (1 / 2 : ℚ) ≤ 1) ∧
      simulateGame (1 / 2) = gameFormulaSpec (1 / 2) :=
  ⟨⟨by norm_num, by norm_num⟩,
    C2_simulateGame_matches_formula (1 / 2) (by norm_num) (by norm_num)⟩

/-- C9: the game-win probability is bounded and monotone: for all
`p ∈ [0,1]`, `simulateGame p ∈ [0,1]`; `simulateGame (1/2)` is exactly
`1/2` (hence approximately `0.5`); and `simulateGame` is monotone
non-decreasing on `[0,1]`, including across the clamping branches of the
deuce probability. -/
theorem C9_simulateGame_bounded_monotone :
    (∀ p : ℚ, 0 ≤ p → p ≤ 1 → 0 ≤ simulateGame p ∧ simulateGame p ≤ 1) ∧
    simulateGame (1 / 2) = 1 / 2 ∧
    (∀ p1 p2 : ℚ, 0 ≤ p1 → p1 ≤ p2 → p2 ≤ 1 →
      simulateGame p1 ≤ simulateGame p2) := by
  refine ⟨fun p h0 h1 => ?_, by unfold simulateGame; norm_num,
    fun p1 p2 h0 h12 h2 => ?_⟩
  · have hd := simulateGame_decomp p
    have hA := gameWinBeforeDeuce_nonneg h0
    have hB := gameWinBeforeDeuce_nonneg (p := 1 - p) (by linarith)
    have hR := gameReachDeuce_nonneg h0 h1
    have hc := gameDeuceProb_bounds p
    have hpart := game_partition p
    constructor
    · rw [hd]
      have : 0 ≤ gameReachDeuce p * gameDeuceProb p :=
        mul_nonneg hR (by linarith [hc.1])
      linarith
    · rw [hd]
      have hRc : gameReachDeuce p * gameDeuceProb p ≤ gameReachDeuce p :=
        mul_le_of_le_one_right hR (by linarith [hc.2])
      linarith
  · have hd1 := simulateGame_decomp p1
    have hd2 := simulateGame_decomp p2
    have h1 : p1 ≤ 1 := h12.trans h2
    have h02 : 0 ≤ p2 := h0.trans h12
    have hA := gameWinBeforeDeuce_mono h0 h12 h2
    have hB := gameWinBeforeDeuce_mono (x := 1 - p2) (y := 1 - p1)
      (by linarith) (by linarith) (by linarith)
    have hc := gameDeuceProb_mono h0 h12 h2
    have hc1 := gameDeuceProb_bounds p1
    have hc2 := gameDeuceProb_bounds p2
    have hR1 := gameReachDeuce_nonneg h0 h1
    have hpart1 := game_partition p1
    have key : simulateGame p2 - simulateGame p1
        = (gameDeuceProb p2 - gameDeuceProb p1) * gameReachDeuce p1
          + (gameWinBeforeDeuce p2 - gameWinBeforeDeuce p1) * (1 - gameDeuceProb p2)
          + (gameWinBeforeDeuce (1 - p1) - gameWinBeforeDeuce (1 - p2)) * gameDeuceProb p2 := by
      rw [hd1, hd2]
      have hR1eq : gameReachDeuce p1
          = 1 - gameWinBeforeDeuce p1 - gameWinBeforeDeuce (1 - p1) := by
        linarith
      have hR2eq : gameReachDeuce p2
          = 1 - gameWinBeforeDeuce p2 - gameWinBeforeDeuce (1 - p2) := by
        linarith [game_partition p2]
      rw [hR1eq, hR2eq]
      ring
    have t1 : 0 ≤ (gameDeuceProb p2 - gameDeuceProb p1) * gameReachDeuce p1 :=
      mul_nonneg (by linarith) hR1
    have t2 : 0 ≤ (gameWinBeforeDeuce p2 - gameWinBeforeDeuce p1)
        * (1 - gameDeuceProb p2) :=
      mul_nonneg (by linarith) (by linarith [hc2.2])
    have t3 : 0 ≤ (gameWinBeforeDeuce (1 - p1) - gameWinBeforeDeuce (1 - p2))
        * gameDeuceProb p2 :=
      mul_nonneg (by linarith) (by linarith [hc2.1])
    linarith

/-- The source serve-rotation computation agrees with the claim's
characterisation: the designated first server serves iff no point has been
played yet or the pair index `(total - 1) / 2` is odd. -/
theorem tiebreakServer_eq_spec (aFirst : Bool) (t : ℕ) :
    tiebreakServerIsA aFirst t
      = if serverIsDesignatedSpec t then aFirst else !aFirst := by
  unfold tiebreakServerIsA serverIsDesignatedSpec
  by_cases h0 : t = 0
  · simp [h0]
  · rcases Nat.mod_two_eq_zero_or_one ((t - 1) / 2) with hpar | hpar
    · rw [if_neg h0, if_pos hpar, if_neg]
      intro hcase
      rcases hcase with hcase | hcase
      · exact h0 hcase
      · omega
    · rw [if_neg h0, if_neg (by omega), if_pos (Or.inr hpar)]

/-- The A-wins terminal test of the source agrees with the claim's
`a ≥ 7 ∧ a - b ≥ 2` (integer subtraction). -/
theorem tiebreak_terminalA_iff (a b : ℕ) :
    (7 ≤ a ∧ b + 2 ≤ a) ↔ (7 ≤ a ∧ 2 ≤ (a : ℤ) - (b : ℤ)) := by
  omega

/-- The B-wins terminal test of the source agrees with the claim's
`b ≥ 7 ∧ b - a ≥ 2` (integer subtraction). -/
theorem tiebreak_terminalB_iff (a b : ℕ) :
    (7 ≤ b ∧ a + 2 ≤ b) ↔ (7 ≤ b ∧ 2 ≤ (b : ℤ) - (a : ℤ)) := by
  omega

/-- The memoised recursion of the source equals the claim's reference
recurrence `V` at every state, by strong induction on the remaining depth
budget. -/
theorem tiebreakProb_eq_V (pA pB : ℚ) (aFirst : Bool) :
    ∀ n a b, 30 - (a + b) ≤ n →
      tiebreakProbRecursive pA pB aFirst a b = tiebreakV pA pB aFirst a b := by
  intro n
  induction n with
  | zero =>
    intro a b hn
    rw [tiebreakProbRecursive.eq_def, tiebreakV.eq_def]
    by_cases h1 : 7 ≤ a ∧ b + 2 ≤ a
    · rw [if_pos h1, if_pos ((tiebreak_terminalA_iff a b).mp h1)]
    · rw [if_neg h1, if_neg (fun hc => h1 ((tiebreak_terminalA_iff a b).mpr hc))]
      by_cases h2 : 7 ≤ b ∧ a + 2 ≤ b
      · rw [if_pos h2, if_pos ((tiebreak_terminalB_iff a b).mp h2)]
      · rw [if_neg h2, if_neg (fun hc => h2 ((tiebreak_terminalB_iff a b).mpr hc))]
        rw [if_pos (by omega : 30 ≤ a + b), if_pos (by omega : 30 ≤ a + b)]
  | succ n ih =>
    intro a b hn
    rw [tiebreakProbRecursive.eq_def, tiebreakV.eq_def]
    by_cases h1 : 7 ≤ a ∧ b + 2 ≤ a
    · rw [if_pos h1, if_pos ((tiebreak_terminalA_iff a b).mp h1)]
    · rw [if_neg h1, if_neg (fun hc => h1 ((tiebreak_terminalA_iff a b).mpr hc))]
      by_cases h2 : 7 ≤ b ∧ a + 2 ≤ b
      · rw [if_pos h2, if_pos ((tiebreak_terminalB_iff a b).mp h2)]
      · rw [if_neg h2, if_neg (fun hc => h2 ((tiebreak_terminalB_iff a b).mpr hc))]
        by_cases hcap : 30 ≤ a + b
        · rw [if_pos hcap, if_pos hcap]
        · rw [if_neg hcap, if_neg hcap]
          dsimp only
          rw [tiebreakServer_eq_spec aFirst (a + b)]
          rw [ih (a + 1) b (by omega), ih a (b + 1) (by omega)]

/-- For point probabilities in `[0,1]` the tiebreak recursion stays in
`[0,1]` at every state. -/
theorem tiebreakProb_bounds (pA pB : ℚ) (hA0 : 0 ≤ pA) (hA1 : pA ≤ 1)
    (hB0 : 0 ≤ pB) (hB1 : pB ≤ 1) (aFirst : Bool) :
    ∀ n a b, 30 - (a + b) ≤ n →
      0 ≤ tiebreakProbRecursive pA pB aFirst a b ∧
        tiebreakProbRecursive pA pB aFirst a b ≤ 1 := by
  intro n
  induction n with
  | zero =>
    intro a b hn
    rw [tiebreakProbRecursive.eq_def]
    by_cases h1 : 7 ≤ a ∧ b + 2 ≤ a
    · rw [if_pos h1]; norm_num
    · rw [if_neg h1]
      by_cases h2 : 7 ≤ b ∧ a + 2 ≤ b
      · rw [if_pos h2]; norm_num
      · rw [if_neg h2, if_pos (by omega : 30 ≤ a + b)]; norm_num
  | succ n ih =>
    intro a b hn
    rw [tiebreakProbRecursive.eq_def]
    by_cases h1 : 7 ≤ a ∧ b + 2 ≤ a
    · rw [if_pos h1]; norm_num
    · rw [if_neg h1]
      by_cases h2 : 7 ≤ b ∧ a + 2 ≤ b
      · rw [if_pos h2]; norm_num
      · rw [if_neg h2]
        by_cases hcap : 30 ≤ a + b
        · rw [if_pos hcap]; norm_num
        · rw [if_neg hcap]
          dsimp only
          have hx := ih (a + 1) b (by omega)
          have hy := ih a (b + 1) (by omega)
          have hw : 0 ≤ (if tiebreakServerIsA aFirst (a + b) then pA else 1 - pB) ∧
              (if tiebreakServerIsA aFirst (a + b) then pA else 1 - pB) ≤ 1 := by
            by_cases hs : tiebreakServerIsA aFirst (a + b)
            · rw [if_pos hs]; exact ⟨hA0, hA1⟩
            · rw [if_neg hs]; constructor <;> linarith
          constructor
          · have := mul_nonneg hw.1 hx.1
            have := mul_nonneg (by linarith [hw.2] : (0:ℚ) ≤ 1 - (if tiebreakServerIsA aFirst (a + b) then pA else 1 - pB)) hy.1
            linarith
          · nlinarith [hx.1, hx.2, hy.1, hy.2, hw.1, hw.2]

/-- C1: for every `probAonServe, probBonServe ∈ [0,1]` and either choice of
first server, the value of the memoised tiebreak recursion agrees with the
reference recurrence `V` over `(pointsA, pointsB)` — with the serve
rotation "designated server iff `a+b = 0` or `⌊(a+b-1)/2⌋` is odd" and
`pWin` the current server's point probability — at every state (in
particular at `(0,0)`), and the computed value lies in `[0,1]`. -/
theorem C1_tiebreak_value (pA pB : ℚ) (hA0 : 0 ≤ pA) (hA1 : pA ≤ 1)
    (hB0 : 0 ≤ pB) (hB1 : pB ≤ 1) (aFirst : Bool) :
    (∀ a b : ℕ, tiebreakProbRecursive pA pB aFirst a b
        = tiebreakV pA pB aFirst a b) ∧
    0 ≤ tiebreakProbRecursive pA pB aFirst 0 0 ∧
    tiebreakProbRecursive pA pB aFirst 0 0 ≤ 1 :=
  ⟨fun a b => tiebreakProb_eq_V pA pB aFirst 30 a b (by omega),
    (tiebreakProb_bounds pA pB hA0 hA1 hB0 hB1 aFirst 30 0 0 (by omega)).1,
    (tiebreakProb_bounds pA pB hA0 hA1 hB0 hB1 aFirst 30 0 0 (by omega)).2⟩

/-- Witness for C1 at `pA = pB = 1/2`, designated first server A. -/
theorem C1_witness :
    ((0 ≤ (1 / 2 : ℚ) ∧ (1 / 2 : ℚ) ≤ 1) ∧
      (0 ≤ (1 / 2 : ℚ) ∧ (1 / 2 : ℚ) ≤ 1)) ∧
    tiebreakProbRecursive (1 / 2) (1 / 2) true 0 0
      = tiebreakV (1 / 2) (1 / 2) true 0 0 ∧
    0 ≤ tiebreakProbRecursive (1 / 2) (1 / 2) true 0 0 ∧
    tiebreakProbRecursive (1 / 2) (1 / 2) true 0 0 ≤ 1 :=
  ⟨⟨⟨by norm_num, by norm_num⟩, ⟨by norm_num, by norm_num⟩⟩,
    (C1_tiebreak_value (1 / 2) (1 / 2) (by norm_num) (by norm_num)
      (by norm_num) (by norm_num) true).1 0 0,
    (C1_tiebreak_value (1 / 2) (1 / 2) (by norm_num) (by norm_num)
      (by norm_num) (by norm_num) true).2.1,
    (C1_tiebreak_value (1 / 2) (1 / 2) (by norm_num) (by norm_num)
      (by norm_num) (by norm_num) true).2.2⟩

/-- C10: for every `probAonServe, probBonServe ∈ [0,1]` and either first
server, the tiebreak recursion only ever evaluates states reachable from
`(0,0)` whose point total is at most 30 — so both indices of every access
to the 31-by-31 memo table are in bounds — and at any non-terminal state
whose total reaches the depth cap of 30 it returns `0.5`. -/
theorem C10_tiebreak_depth_cap (pA pB : ℚ) (hA0 : 0 ≤ pA) (hA1 : pA ≤ 1)
    (hB0 : 0 ≤ pB) (hB1 : pB ≤ 1) (aFirst : Bool) :
    (∀ s : ℕ × ℕ, Relation.ReflTransGen tiebreakStep (0, 0) s →
      s.1 + s.2 ≤ 30 ∧ s.1 ≤ 30 ∧ s.2 ≤ 30) ∧
    (∀ p1 p2 : ℕ, ¬tiebreakTerminal p1 p2 → 30 ≤ p1 + p2 →
      tiebreakProbRecursive pA pB aFirst p1 p2 = 1 / 2) := by
  constructor
  · intro s hreach
    induction hreach with
    | refl => omega
    | tail _ hstep ih =>
      obtain ⟨_, hlt, hsucc⟩ := hstep
      rcases hsucc with h | h <;> subst h <;> simp only at * <;> omega
  · intro p1 p2 hterm hcap
    rw [tiebreakProbRecursive.eq_def]
    rw [if_neg (fun hc => hterm (Or.inl hc)), if_neg (fun hc => hterm (Or.inr hc)),
      if_pos hcap]

/-- Witness for C10: the state `(1,0)` is reached in one step from `(0,0)`
and obeys the bound, and the non-terminal cap state `(15,15)` yields
`0.5`. -/
theorem C10_witness :
    (Relation.ReflTransGen tiebreakStep (0, 0) (1, 0) ∧
      (1 + 0 ≤ 30 ∧ 1 ≤ 30 ∧ 0 ≤ 30)) ∧
    (¬tiebreakTerminal 15 15 ∧ 30 ≤ 15 + 15) ∧
    tiebreakProbRecursive (1 / 2) (1 / 2) true 15 15 = 1 / 2 := by
  have hstep : Relation.ReflTransGen tiebreakStep (0, 0) (1, 0) :=
    Relation.ReflTransGen.single ⟨by decide, by norm_num, Or.inl rfl⟩
  have hmain := C10_tiebreak_depth_cap (1 / 2) (1 / 2) (by norm_num)
    (by norm_num) (by norm_num) (by norm_num) true
  exact ⟨⟨hstep, hmain.1 (1, 0) hstep⟩, ⟨by decide, by norm_num⟩,
    hmain.2 15 15 (by decide) (by norm_num)⟩

/-- Every set produced by `simulateSet` has a valid finished score,
whatever the probabilities and the random stream. -/
theorem simulateSet_valid (a b : ℚ) (p1 : Bool) (rng : ℕ → ℚ) (k : ℕ) :
    validSetScore (simulateSet a b p1 rng k).1 := by
  unfold simulateSet
  exact setLoop_valid a b (simulateGame a) (simulateGame b) p1 rng 13 0 0
    (if p1 then 1 else 2) k (by omega) (by omega) (by decide) (by omega)

/-- Every run of the match loop from a legal mid-match state yields a
well-formed match: all stored sets valid, exactly one side at `setsToWin`,
and one stored set per set won.  The fuel bound is satisfied by the real
entry `(0, 0)` with fuel `2*s`. -/
theorem matchLoop_wf (pA pB : ℚ) (s : ℕ) (rng : ℕ → ℚ) :
    ∀ fuel asets bsets sets k,
      asets ≤ s → bsets ≤ s → ¬(asets = s ∧ bsets = s) →
      (s - asets) + (s - bsets) ≤ fuel →
      sets.length = asets + bsets →
      (∀ st ∈ sets, validSetScore st) →
      wellFormedMatch s (matchLoop pA pB s rng fuel asets bsets sets k).1 := by
  intro fuel
  induction fuel with
  | zero =>
    intro asets bsets sets k ha hb hne hfuel _ _
    exact absurd hfuel (by omega)
  | succ fuel ih =>
    intro asets bsets sets k ha hb hne hfuel hlen hv
    simp only [matchLoop]
    by_cases hguard : asets = s ∨ bsets = s
    · rw [if_pos hguard]
      refine ⟨hv, ?_, hlen⟩
      show (asets = s ∧ bsets < s) ∨ (bsets = s ∧ asets < s)
      omega
    · rw [if_neg hguard]
      by_cases hserve : (asets + bsets) % 2 = 0
      · simp only [if_pos hserve]
        have hset := simulateSet_valid pA pB true rng k
        split <;>
          refine ih _ _ _ _ (by omega) (by omega) (by omega) (by omega)
            (by simp [hlen]; omega) ?_ <;>
          · intro st hst
            rcases List.mem_append.mp hst with hmem | hmem
            · exact hv st hmem
            · rw [List.mem_singleton.mp hmem]
              exact hset
      · simp only [if_neg hserve]
        have hset := simulateSet_valid pB pA true rng k
        split <;>
          refine ih _ _ _ _ (by omega) (by omega) (by omega) (by omega)
            (by simp [hlen]; omega) ?_ <;>
          · intro st hst
            rcases List.mem_append.mp hst with hmem | hmem
            · exact hv st hmem
            · rw [List.mem_singleton.mp hmem]
              exact hset

/-- Every match produced by `simulateSingleMatch` with a positive target is
well-formed. -/
theorem simulateSingleMatch_wf (pA pB : ℚ) (s : ℕ) (hs : 0 < s)
    (rng : ℕ → ℚ) (k : ℕ) :
    wellFormedMatch s (simulateSingleMatch pA pB s rng k).1 := by
  unfold simulateSingleMatch
  refine matchLoop_wf pA pB s rng (2 * s) 0 0 [] k (by omega) (by omega)
    (by omega) (by omega) rfl ?_
  intro st hst
  exact absurd hst (List.not_mem_nil st)

/-- The simulation loop returns exactly `count` matches, every one of them
produced by `simulateSingleMatch` at some stream position. -/
theorem simLoop_spec (pA pB : ℚ) (s : ℕ) (rng : ℕ → ℚ) :
    ∀ count k, (simLoop pA pB s rng count k).1.length = count ∧
      ∀ m ∈ (simLoop pA pB s rng count k).1,
        ∃ j, m = (simulateSingleMatch pA pB s rng j).1 := by
  intro count
  induction count with
  | zero =>
    intro k
    refine ⟨rfl, ?_⟩
    intro m hm
    exact absurd hm (List.not_mem_nil m)
  | succ count ih =>
    intro k
    simp only [simLoop]
    constructor
    · simp [(ih _).1]
    · intro m hm
      rcases List.mem_cons.mp hm with hm | hm
      · exact ⟨k, hm⟩
      · exact (ih _).2 m hm

/-- Concrete evaluation: a perfect server wins the game surely. -/
theorem simulateGame_one : simulateGame 1 = 1 := by
  unfold simulateGame
  norm_num

/-- Concrete evaluation: a server who never wins a point never wins the
game. -/
theorem simulateGame_zero : simulateGame 0 = 0 := by
  unfold simulateGame
  norm_num

/-- Concrete run used by several counterexamples: with `pA = 1`, `pB = 0`,
best-of-3 and any half-stream, player A wins every game; the stored sets
are `6-0` then `0-6` because the second set is simulated with the
parameters swapped and stored unswapped. -/
theorem run_match_eval : simulateSingleMatch 1 0 2 rngHalf 0 =
    (⟨2, 0, [⟨6, 0⟩, ⟨0, 6⟩]⟩, 12) := by
  unfold simulateSingleMatch
  simp only [matchLoop, simulateSet, simulateGame_one, simulateGame_zero,
    setLoop, rngHalf, setGameBreak, aWinsTiebreak]
  norm_num

/-- Concrete run of the traced simulation on the same input. -/
theorem run_traced_eval : simulateSingleMatchTraced 1 0 2 rngHalf 0 =
    (⟨2, 0, [(true, ⟨6, 0⟩), (false, ⟨0, 6⟩)]⟩, 12) := by
  unfold simulateSingleMatchTraced
  simp only [matchLoopTraced, simulateSet, simulateGame_one,
    simulateGame_zero, setLoop, rngHalf, setGameBreak, aWinsTiebreak]
  norm_num

/-- Concrete run of the public entry point on the same input. -/
theorem run_SimulateMatch_eval : SimulateMatch 1 0 3 (some 1) rngHalf =
    .ok [⟨2, 0, [⟨6, 0⟩, ⟨0, 6⟩]⟩] := by
  unfold SimulateMatch numSimulations
  have h32 : (3 : ℤ).toNat / 2 + 1 = 2 := by decide
  norm_num [h32, simLoop, run_match_eval]

/-- C6: `SimulateMatch` returns the `InvalidConfiguration` error (and no
results) iff `bestOf ∉ {3, 5}`; the check precedes all simulation, and for
`bestOf ∈ {3, 5}` it returns a list of exactly `numSimulations n` matches:
`n` itself when supplied positive, 1,000,000 when unsupplied or
non-positive. -/
theorem C6_SimulateMatch_config (pA pB : ℚ) (bo : ℤ) (n : Option ℤ)
    (rng : ℕ → ℚ) :
    ((∃ e, SimulateMatch pA pB bo n rng = .error e) ↔ (bo ≠ 3 ∧ bo ≠ 5)) ∧
    ((bo = 3 ∨ bo = 5) → ∃ l, SimulateMatch pA pB bo n rng = .ok l ∧
      l.length = numSimulations n) ∧
    (∀ m : ℤ, 0 < m → numSimulations (some m) = m.toNat) ∧
    (∀ m : ℤ, m ≤ 0 → numSimulations (some m) = 1000000) ∧
    numSimulations none = 1000000 := by
  refine ⟨?_, ?_, ?_, ?_, rfl⟩
  · unfold SimulateMatch
    by_cases hbo : bo ≠ 3 ∧ bo ≠ 5
    · rw [if_pos hbo]
      exact ⟨fun _ => hbo, fun _ => ⟨"invalid number of sets", rfl⟩⟩
    · rw [if_neg hbo]
      constructor
      · rintro ⟨e, he⟩
        exact absurd he (by simp)
      · intro hc
        exact absurd hc hbo
  · intro hbo
    unfold SimulateMatch
    rw [if_neg (by omega)]
    exact ⟨_, rfl, (simLoop_spec pA pB (bo.toNat / 2 + 1) rng
      (numSimulations n) 0).1⟩
  · intro m hm
    show (if 0 < m then m.toNat else 1000000) = m.toNat
    rw [if_pos hm]
  · intro m hm
    show (if 0 < m then m.toNat else 1000000) = 1000000
    rw [if_neg (by omega)]

/-- Witness for C6: `bestOf = 4` errors, `bestOf = 3` with `n = 2` yields
two matches. -/
theorem C6_witness :
    (∃ e, SimulateMatch (1 / 2) (1 / 2) 4 none rngHalf = .error e) ∧
    (∃ l, SimulateMatch 1 0 3 (some 2) rngHalf = .ok l ∧
      l.length = numSimulations (some 2)) :=
  ⟨(C6_SimulateMatch_config (1 / 2) (1 / 2) 4 none rngHalf).1.mpr
      ⟨by decide, by decide⟩,
    (C6_SimulateMatch_config 1 0 3 (some 2) rngHalf).2.1 (Or.inl rfl)⟩

/-- C7: every match produced by the simulator for `bestOf ∈ {3, 5}` is
well-formed: all stored set scores lie in `{6-x : x ≤ 4} ∪ {7-5} ∪ {7-6}`
(in some orientation), exactly one of `ASets`, `BSets` equals
`setsToWin = ⌈bestOf/2⌉` (2 for best-of-3, 3 for best-of-5) with the other
strictly smaller, and the stored set list has length `ASets + BSets`. -/
theorem C7_matches_well_formed (pA pB : ℚ) (bo : ℤ) (n : Option ℤ)
    (rng : ℕ → ℚ) (l : List SimulatedMatch)
    (h : SimulateMatch pA pB bo n rng = .ok l) :
    ∀ m ∈ l, wellFormedMatch (bo.toNat / 2 + 1) m := by
  unfold SimulateMatch at h
  by_cases hbo : bo ≠ 3 ∧ bo ≠ 5
  · rw [if_pos hbo] at h
    exact absurd h (by simp)
  · rw [if_neg hbo] at h
    intro m hm
    obtain ⟨j, hj⟩ := (simLoop_spec pA pB (bo.toNat / 2 + 1) rng
      (numSimulations n) 0).2 m (by rw [Except.ok.injEq] at h; rw [← h] at hm; exact hm)
    rw [hj]
    exact simulateSingleMatch_wf pA pB (bo.toNat / 2 + 1) (by omega) rng j

/-- Witness for C7 on the concrete best-of-3 run with `pA = 1`, `pB = 0`. -/
theorem C7_witness :
    SimulateMatch 1 0 3 (some 1) rngHalf
      = .ok [⟨2, 0, [⟨6, 0⟩, ⟨0, 6⟩]⟩] ∧
    ∀ m ∈ [(⟨2, 0, [⟨6, 0⟩, ⟨0, 6⟩]⟩ : SimulatedMatch)],
      wellFormedMatch ((3 : ℤ).toNat / 2 + 1) m :=
  ⟨run_SimulateMatch_eval,
    C7_matches_well_formed 1 0 3 (some 1) rngHalf _ run_SimulateMatch_eval⟩

/-- The traced match loop is the match loop with ghost flags: erasing the
flags from its state and result recovers `matchLoop` exactly (same sets,
same counts, same stream cursor). -/
theorem matchLoopTraced_erases (pA pB : ℚ) (s : ℕ) (rng : ℕ → ℚ) :
    ∀ fuel asets bsets tr k,
      matchLoop pA pB s rng fuel asets bsets (tr.map Prod.snd) k
        = (⟨(matchLoopTraced pA pB s rng fuel asets bsets tr k).1.ASets,
            (matchLoopTraced pA pB s rng fuel asets bsets tr k).1.BSets,
            (matchLoopTraced pA pB s rng fuel asets bsets tr k).1.trace.map
              Prod.snd⟩,
          (matchLoopTraced pA pB s rng fuel asets bsets tr k).2) := by
  intro fuel
  induction fuel with
  | zero =>
    intro asets bsets tr k
    rfl
  | succ fuel ih =>
    intro asets bsets tr k
    simp only [matchLoop, matchLoopTraced]
    by_cases hguard : asets = s ∨ bsets = s
    · simp only [if_pos hguard]
    · simp only [if_neg hguard]
      have hmap : ∀ (fl : Bool) (st : SimulatedSet),
          tr.map Prod.snd ++ [st] = (tr ++ [(fl, st)]).map Prod.snd := by
        intro fl st
        simp
      by_cases hserve : (asets + bsets) % 2 = 0
      · simp only [if_pos hserve]
        split
        · rw [hmap (decide ((asets + bsets) % 2 = 0))
            (simulateSet pA pB true rng k).1]
          exact ih _ _ _ _
        · rw [hmap (decide ((asets + bsets) % 2 = 0))
            (simulateSet pA pB true rng k).1]
          exact ih _ _ _ _
      · simp only [if_neg hserve]
        split
        · rw [hmap (decide ((asets + bsets) % 2 = 0))
            (simulateSet pB pA true rng k).1]
          exact ih _ _ _ _
        · rw [hmap (decide ((asets + bsets) % 2 = 0))
            (simulateSet pB pA true rng k).1]
          exact ih _ _ _ _

/-- In every traced run, the recorded `aServesFirstGameOfSet` flags follow
the parity of the number of completed sets: the flag of the set stored at
index `i` is `true` iff `i` is even. -/
theorem matchLoopTraced_flags (pA pB : ℚ) (s : ℕ) (rng : ℕ → ℚ) :
    ∀ fuel asets bsets tr k,
      tr.length = asets + bsets →
      tr.map Prod.fst
        = (List.range tr.length).map (fun i => decide (i % 2 = 0)) →
      ((matchLoopTraced pA pB s rng fuel asets bsets tr k).1.trace.map
          Prod.fst)
        = (List.range
            (matchLoopTraced pA pB s rng fuel asets bsets tr k).1.trace.length).map
            (fun i => decide (i % 2 = 0)) := by
  intro fuel
  induction fuel with
  | zero =>
    intro asets bsets tr k _ hflags
    exact hflags
  | succ fuel ih =>
    intro asets bsets tr k hlen hflags
    simp only [matchLoopTraced]
    by_cases hguard : asets = s ∨ bsets = s
    · simp only [if_pos hguard]
      exact hflags
    · simp only [if_neg hguard]
      have hext : ∀ st : SimulatedSet,
          (tr ++ [(decide ((asets + bsets) % 2 = 0), st)]).map Prod.fst
            = (List.range
                (tr ++ [(decide ((asets + bsets) % 2 = 0), st)]).length).map
                (fun i => decide (i % 2 = 0)) := by
        intro st
        have hlen2 : (tr ++ [(decide ((asets + bsets) % 2 = 0), st)]).length
            = tr.length + 1 := by
          simp
        rw [hlen2, List.range_succ, List.map_append, List.map_append,
          ← hflags]
        simp [hlen]
      by_cases hserve : (asets + bsets) % 2 = 0
      · simp only [if_pos hserve]
        split
        · exact ih _ _ _ _ (by simp [hlen]; omega) (hext _)
        · exact ih _ _ _ _ (by simp [hlen]; omega) (hext _)
      · simp only [if_neg hserve]
        split
        · exact ih _ _ _ _ (by simp [hlen]; omega) (hext _)
        · exact ih _ _ _ _ (by simp [hlen]; omega) (hext _)

/-- C3 (failing input): with `pA = 1`, `pB = 0`, best-of-3 and any legal
draw stream, player A wins all 12 games of the match, yet `getMatchGames`
returns `(6, 6)`: the set stored at index 1 was simulated with the
parameter order swapped (`simulateSet(pB, pA, true)`) and appended without
swapping back, so its `AGames` field holds player B's games.  The traced
run (same control flow, `matchLoopTraced_erases`) shows the ground-truth
per-player tally is `(12, 0)`. -/
theorem C3_getMatchGames_mixes_sides :
    getMatchGames (simulateSingleMatch 1 0 2 rngHalf 0).1 = (6, 6) ∧
    truePlayerGames (simulateSingleMatchTraced 1 0 2 rngHalf 0).1.trace
      = (12, 0) ∧
    (simulateSingleMatch 1 0 2 rngHalf 0).1.SetResults
      = (simulateSingleMatchTraced 1 0 2 rngHalf 0).1.trace.map Prod.snd := by
  rw [run_match_eval, run_traced_eval]
  exact ⟨by decide, by decide, by decide⟩

/-- C4 (counterexample): on the concrete run with `pA = 1`, `pB = 0`,
best-of-3, the first set ends `6-0` (6 games, an even total), yet the
second set is simulated with player B's parameters serving first — the
code decides the first server by the parity of completed sets, not of
games played, so the claimed games-parity rule fails. -/
theorem C4_counterexample :
    ¬ gamesParityRule (simulateSingleMatchTraced 1 0 2 rngHalf 0).1.trace := by
  rw [run_traced_eval]
  decide

/-- C4 (amended): in every simulated match, player A's parameters serve
first in a set iff the number of completed sets so far is even —
equivalently, the set stored at index `i` was simulated under
`aServesFirstGameOfSet = true` iff `i` is even; erasing the ghost flags
recovers the untraced simulation exactly. -/
theorem C4_set_parity_rule (pA pB : ℚ) (s : ℕ) (rng : ℕ → ℚ) (k : ℕ) :
    ((simulateSingleMatchTraced pA pB s rng k).1.trace.map Prod.fst
      = (List.range
          (simulateSingleMatchTraced pA pB s rng k).1.trace.length).map
          (fun i => decide (i % 2 = 0))) ∧
    (simulateSingleMatch pA pB s rng k).1.SetResults
      = (simulateSingleMatchTraced pA pB s rng k).1.trace.map Prod.snd := by
  constructor
  · unfold simulateSingleMatchTraced
    exact matchLoopTraced_flags pA pB s rng (2 * s) 0 0 [] k rfl rfl
  · unfold simulateSingleMatch simulateSingleMatchTraced
    have h := congrArg (fun r => r.1.SetResults)
      (matchLoopTraced_erases pA pB s rng (2 * s) 0 0 [] k)
    simpa using h

/-- C5 (counterexample): for the single match `ASets = 2, BSets = 1` and
handicap `h = 1.5 ≥ 0`, the code's `probA` is 1 (A plus 1.5 exceeds B),
but the claim's sign-branched rule counts results with
`B - A > 1.5`, giving 0 — the two rules the claim equates differ. -/
theorem C5_counterexample :
    (getSetHandicap [⟨2, 1, []⟩] (3 / 2)).ProbA
      ≠ setHandicapSignBranchProbA [⟨2, 1, []⟩] (3 / 2) := by
  have h1 : (getSetHandicap [⟨2, 1, []⟩] (3 / 2)).ProbA = 1 := by
    unfold getSetHandicap
    norm_num
  have h2 : setHandicapSignBranchProbA [⟨2, 1, []⟩] (3 / 2) = 0 := by
    unfold setHandicapSignBranchProbA
    norm_num
  rw [h1, h2]
  norm_num

/-- C5 (amended): for every handicap `h` (of either sign), the game and set
handicap lines both use the branch-free covering rule: `probA` is the
fraction of results with `B_result - A_result < h`, equivalently
`A_result + h > B_result`, and `probB = 1 - probA`.  (The claim's `> h`
comparison for `h ≥ 0` is the slip; the `< h` rule holds for all `h`.) -/
theorem C5_cover_rule (sims : List SimulatedMatch) (h : ℚ) :
    (getGameHandicap sims h).ProbA
      = coverFractionProbA (sims.map getMatchGames) h ∧
    (getGameHandicap sims h).ProbB = 1 - (getGameHandicap sims h).ProbA ∧
    (getSetHandicap sims h).ProbA
      = coverFractionProbA (sims.map fun m => (m.ASets, m.BSets)) h ∧
    (getSetHandicap sims h).ProbB = 1 - (getSetHandicap sims h).ProbA := by
  refine ⟨?_, rfl, ?_, rfl⟩
  · unfold getGameHandicap coverFractionProbA
    dsimp only
    rw [List.filter_map, List.length_map, List.length_map]
    have heq : sims.filter
          (fun m => decide (((getMatchGames m).2 : ℚ)
            < ((getMatchGames m).1 : ℚ) + h))
        = sims.filter
          ((fun p => decide (((p.2 : ℕ) : ℚ) - ((p.1 : ℕ) : ℚ) < h))
            ∘ getMatchGames) := by
      apply List.filter_congr
      intro m _
      simp only [Function.comp_apply, decide_eq_decide]
      constructor <;> intro <;> linarith
    rw [heq]
  · unfold getSetHandicap coverFractionProbA
    dsimp only
    rw [List.filter_map, List.length_map, List.length_map]
    have heq : sims.filter
          (fun m => decide ((m.BSets : ℚ) < (m.ASets : ℚ) + h))
        = sims.filter
          ((fun p => decide (((p.2 : ℕ) : ℚ) - ((p.1 : ℕ) : ℚ) < h))
            ∘ fun m => (m.ASets, m.BSets)) := by
      apply List.filter_congr
      intro m _
      simp only [Function.comp_apply, decide_eq_decide]
      constructor <;> intro <;> linarith
    rw [heq]

/-- Any market line of the shape `(count/len, 1 - count/len)` built from a
filter over a non-empty sample is two-sided with components in `[0, 1]`. -/
theorem marketOK_ratio {α : Type} (l : List α) (p : α → Bool) (hne : l ≠ [])
    (mkt : Market) (line : ℚ) :
    marketOK ⟨mkt, line, ((l.filter p).length : ℚ) / (l.length : ℚ),
      1 - ((l.filter p).length : ℚ) / (l.length : ℚ)⟩ := by
  have hpos : 0 < (l.length : ℚ) := by
    exact_mod_cast List.length_pos.mpr hne
  have hle : ((l.filter p).length : ℚ) ≤ (l.length : ℚ) := by
    exact_mod_cast List.length_filter_le p l
  have h0 : 0 ≤ ((l.filter p).length : ℚ) / (l.length : ℚ) :=
    div_nonneg (by positivity) hpos.le
  have h1 : ((l.filter p).length : ℚ) / (l.length : ℚ) ≤ 1 :=
    (div_le_one hpos).mpr hle
  unfold marketOK
  refine ⟨by ring, h0, h1, by linarith, by linarith⟩

/-- C8: on a non-empty match sample, every line produced by the market
deriver — the moneyline, every game/set handicap line and every game/set
total line — has `probA + probB = 1` exactly (the rational idealisation of
"within floating-point tolerance") with both components in `[0, 1]`; on the
empty sample no exception can occur (the functions are total) and every
`probA` is the `0/0` ratio, which is `NaN` in `float64` semantics. -/
theorem C8_market_lines_two_sided (sims : List SimulatedMatch) (bo : ℤ) :
    (sims ≠ [] →
      marketOK (GetMoneyline sims) ∧
      (∀ pr ∈ GetGameHandicaps sims bo, marketOK pr) ∧
      (∀ pr ∈ GetGameTotals sims bo, marketOK pr) ∧
      (∀ pr ∈ GetSetHandicaps sims bo, marketOK pr) ∧
      (∀ pr ∈ GetSetTotals sims bo, marketOK pr)) ∧
    ((GetMoneyline ([] : List SimulatedMatch)).ProbA = (0 : ℚ) / 0 ∧
      (∀ pr ∈ GetGameHandicaps [] bo, pr.ProbA = (0 : ℚ) / 0) ∧
      (∀ pr ∈ GetGameTotals [] bo, pr.ProbA = (0 : ℚ) / 0) ∧
      (∀ pr ∈ GetSetHandicaps [] bo, pr.ProbA = (0 : ℚ) / 0) ∧
      (∀ pr ∈ GetSetTotals [] bo, pr.ProbA = (0 : ℚ) / 0)) := by
  constructor
  · intro hne
    refine ⟨?_, ?_, ?_, ?_, ?_⟩
    · unfold GetMoneyline
      exact marketOK_ratio sims _ hne _ _
    · intro pr hpr
      obtain ⟨i, _, rfl⟩ := List.mem_map.mp hpr
      unfold getGameHandicap
      exact marketOK_ratio sims _ hne _ _
    · intro pr hpr
      obtain ⟨i, _, rfl⟩ := List.mem_map.mp hpr
      unfold getGameTotal
      exact marketOK_ratio sims _ hne _ _
    · intro pr hpr
      unfold GetSetHandicaps at hpr
      by_cases hbo : bo = 3 <;>
        [rw [if_pos hbo] at hpr; rw [if_neg hbo] at hpr] <;>
        · obtain ⟨i, _, rfl⟩ := List.mem_map.mp hpr
          unfold getSetHandicap
          exact marketOK_ratio sims _ hne _ _
    · intro pr hpr
      unfold GetSetTotals at hpr
      by_cases hbo : bo = 3
      · rw [if_pos hbo] at hpr
        rw [List.mem_singleton.mp hpr]
        unfold getSetTotal
        exact marketOK_ratio sims _ hne _ _
      · rw [if_neg hbo] at hpr
        obtain ⟨i, _, rfl⟩ := List.mem_map.mp hpr
        unfold getSetTotal
        exact marketOK_ratio sims _ hne _ _
  · refine ⟨by unfold GetMoneyline; norm_num, ?_, ?_, ?_, ?_⟩
    · intro pr hpr
      obtain ⟨i, _, rfl⟩ := List.mem_map.mp hpr
      unfold getGameHandicap
      norm_num
    · intro pr hpr
      obtain ⟨i, _, rfl⟩ := List.mem_map.mp hpr
      unfold getGameTotal
      norm_num
    · intro pr hpr
      unfold GetSetHandicaps at hpr
      by_cases hbo : bo = 3 <;>
        [rw [if_pos hbo] at hpr; rw [if_neg hbo] at hpr] <;>
        · obtain ⟨i, _, rfl⟩ := List.mem_map.mp hpr
          unfold getSetHandicap
          norm_num
    · intro pr hpr
      unfold GetSetTotals at hpr
      by_cases hbo : bo = 3
      · rw [if_pos hbo] at hpr
        rw [List.mem_singleton.mp hpr]
        unfold getSetTotal
        norm_num
      · rw [if_neg hbo] at hpr
        obtain ⟨i, _, rfl⟩ := List.mem_map.mp hpr
        unfold getSetTotal
        norm_num

/-- Witness for C8 on a concrete one-match sample. -/
theorem C8_witness :
    ([(⟨2, 0, [⟨6, 0⟩, ⟨6, 0⟩]⟩ : SimulatedMatch)] ≠ []) ∧
    marketOK (GetMoneyline [⟨2, 0, [⟨6, 0⟩, ⟨6, 0⟩]⟩]) ∧
    (∀ pr ∈ GetSetTotals [⟨2, 0, [⟨6, 0⟩, ⟨6, 0⟩]⟩] 3, marketOK pr) :=
  ⟨by simp,
    ((C8_market_lines_two_sided [⟨2, 0, [⟨6, 0⟩, ⟨6, 0⟩]⟩] 3).1 (by simp)).1,
    ((C8_market_lines_two_sided [⟨2, 0, [⟨6, 0⟩, ⟨6, 0⟩]⟩] 3).1
      (by simp)).2.2.2.2⟩

/-- Witness for C9 at `p = 1/4 ≤ 3/4`. -/
theorem C9_witness :
    ((0 ≤ (1 / 4 : ℚ) ∧ (1 / 4 : ℚ) ≤ 1) ∧
      (0 ≤ (1 / 4 : ℚ) ∧ (1 / 4 : ℚ) ≤ (3 / 4 : ℚ) ∧ (3 / 4 : ℚ) ≤ 1)) ∧
    (0 ≤ simulateGame (1 / 4) ∧ simulateGame (1 / 4) ≤ 1) ∧
    simulateGame (1 / 2) = 1 / 2 ∧
    simulateGame (1 / 4) ≤ simulateGame (3 / 4) :=
  ⟨⟨⟨by norm_num, by norm_num⟩, ⟨by norm_num, by norm_num, by norm_num⟩⟩,
    C9_simulateGame_bounded_monotone.1 (1 / 4) (by norm_num) (by norm_num),
    C9_simulateGame_bounded_monotone.2.1,
    C9_simulateGame_bounded_monotone.2.2 (1 / 4) (3 / 4) (by norm_num)
      (by norm_num) (by norm_num)⟩

end GoTennis
